import Mathlib

/-!
Shallow embedding of the block-processing core of beacon-kit:
the execution-log cache (src/beacon/execution/logs/cache.go), the payload
verifier and deposit service (src/unnamed/part_002), the block-processing
pipeline (src/beacon/blockchain/process.go), and the forkchoice notifier
(src/unnamed/part_001).

Modelling conventions:
* Go `uint64` values become `Nat`; where Go wrap-around matters the
  reduction `% 2^64` is explicit (see `usub64`).
* Go `error` results become `Option ε` (`none` = nil error) or `Except ε`.
* Nil-able Go interface values (nil block, nil body, nil payload sentinels,
  for which the code checks `IsNil()`) become `Option` types.
* External collaborators (state-transition engine, execution-engine client,
  forkchoice store, deposit contract) are oracle fields of a service record;
  the functions under verification are deterministic in those oracles.
* Side-effecting calls additionally return a trace (a `List` of events) so
  that "collaborator was invoked with argument x" is a provable statement.
-/

namespace BeaconKit

/-! ## Log cache (src/beacon/execution/logs/cache.go)

`Cache` carries a `finalStore` of containers from finalized blocks, the
`lastFinalizedBlock` number, and a `processingStore` for the block currently
being processed.  The container type is a parameter, as in the Go source
where `LogValueContainer` is an interface. -/

/-- A minimal view of `ethtypes.Log`: `ShouldProcess` only reads its
`BlockNumber` field. -/
structure EthLog where
  blockNumber : Nat
deriving DecidableEq

structure Cache (α : Type) where
  finalStore : List α
  lastFinalizedBlock : Nat
  processingStore : List α
deriving DecidableEq

/-- The zero value of `Cache`: the in-memory cache starts empty with
`lastFinalizedBlock = 0`. -/
def Cache.empty {α : Type} : Cache α := ⟨[], 0, []⟩

/-- `ShouldProcess` returns true iff the log's block number exceeds
`lastFinalizedBlock` (cache.go line 57). -/
def Cache.ShouldProcess {α : Type} (c : Cache α) (log : EthLog) : Bool :=
  decide (log.blockNumber > c.lastFinalizedBlock)

/-- `Push` appends the container to the processing store and returns a nil
error (cache.go lines 65-70). -/
def Cache.Push {α : Type} (c : Cache α) (container : α) :
    Cache α × Option Unit :=
  ({ c with processingStore := c.processingStore ++ [container] }, none)

/-- `LastFinalizedBlock` returns the stored block number (cache.go 74-76). -/
def Cache.LastFinalizedBlock {α : Type} (c : Cache α) : Nat :=
  c.lastFinalizedBlock

/-- `SetLastFinalizedBlock` stores the block number, appends the whole
processing store onto the final store, and clears the processing store
(cache.go lines 82-86). -/
def Cache.SetLastFinalizedBlock {α : Type} (c : Cache α) (blockNumber : Nat) :
    Cache α :=
  { c with
    lastFinalizedBlock := blockNumber
    finalStore := c.finalStore ++ c.processingStore
    processingStore := [] }

/-- `Rollback` clears the processing store only (cache.go lines 91-93). -/
def Cache.Rollback {α : Type} (c : Cache α) : Cache α :=
  { c with processingStore := [] }

/-- One mutating call on the cache, for reasoning about call sequences. -/
inductive CacheOp (α : Type) where
  | push (container : α)
  | setLastFinalizedBlock (blockNumber : Nat)
  | rollback
deriving DecidableEq

/-- Apply one call to the cache. -/
def Cache.apply {α : Type} (c : Cache α) : CacheOp α → Cache α
  | .push x => (c.Push x).1
  | .setLastFinalizedBlock n => c.SetLastFinalizedBlock n
  | .rollback => c.Rollback

/-- Run a sequence of calls from a given cache state. -/
def Cache.run {α : Type} (c : Cache α) (ops : List (CacheOp α)) : Cache α :=
  ops.foldl Cache.apply c

/-- The containers accumulated by pushes, starting from pending list `ps`,
with every finalize or rollback resetting the accumulator: this tracks the
processing store along a call sequence. -/
def pushedAux {α : Type} (ps : List α) : List (CacheOp α) → List α
  | [] => ps
  | .push x :: rest => pushedAux (ps ++ [x]) rest
  | .setLastFinalizedBlock _ :: rest => pushedAux [] rest
  | .rollback :: rest => pushedAux [] rest

/-- The containers pushed since the last `SetLastFinalizedBlock` or
`Rollback` in the sequence (all pushes, when there is no such boundary). -/
def pushedSinceLastBoundary {α : Type} (ops : List (CacheOp α)) : List α :=
  pushedAux [] ops

/-- Checks that every `setLastFinalizedBlock` argument in the sequence is at
least the cache's `lastFinalizedBlock` at the moment of that call. -/
def finalizeArgsValid {α : Type} (c : Cache α) : List (CacheOp α) → Bool
  | [] => true
  | op :: rest =>
    (match op with
     | .setLastFinalizedBlock n => decide (c.lastFinalizedBlock ≤ n)
     | _ => true) && finalizeArgsValid (c.apply op) rest

/-! ## Payload verifier (`VerifyPayload`, src/unnamed/part_002)

Execution hashes, roots and randao mixes are 32-byte values compared only
for equality; they are modelled as `Nat`. -/

/-- A withdrawal (src/mod/engine-primitives, withdrawal.ssz.go): fields
Index, Validator, Address, Amount.  `VerifyPayload` only counts them. -/
structure Withdrawal where
  index : Nat
  validator : Nat
  address : Nat
  amount : Nat
deriving DecidableEq

/-- The part of an execution payload read by this core: block hash, parent
hash, prev-randao, withdrawals. -/
structure ExecutionPayload where
  blockHash : Nat
  parentHash : Nat
  prevRandao : Nat
  withdrawals : List Withdrawal
deriving DecidableEq

/-- The part of the latest execution payload header read by this core. -/
structure ExecutionPayloadHeader where
  blockHash : Nat
deriving DecidableEq

/-- Read interface of the beacon state; every accessor can fail, as in the
Go `state.BeaconState` interface.  `ε` is the opaque error type. -/
structure BeaconState (ε : Type) where
  getLatestExecutionPayloadHeader : Except ε ExecutionPayloadHeader
  getLatestExecutionPayload : Except ε ExecutionPayload
  getSlot : Except ε Nat
  getRandaoMixAtIndex : Nat → Except ε Nat

/-- Chain-spec parameters consumed by `VerifyPayload`. -/
structure ChainSpec where
  slotToEpoch : Nat → Nat
  epochsPerHistoricalVector : Nat
  maxWithdrawalsPerPayload : Nat

/-- Distinguishable error results of `VerifyPayload`.  In Go these are
distinct `errors.Newf` values; each constructor carries exactly the values
the corresponding format string embeds, in source order. -/
inductive VerifyError (ε : Type) where
  | stateError (e : ε)
  | unfinalizedParent (parentHash safeHash : Nat)
  | randaoMismatch (expected got : Nat)
  | tooManyWithdrawals (expected got : Nat)
deriving DecidableEq

/-- `VerifyPayload` (part_002 lines 78-140): parent-hash linkage against the
latest execution payload header, prev-randao against
`RandaoMixAtIndex (SlotToEpoch slot % EpochsPerHistoricalVector)`, and the
withdrawal count bound, in that order, first failure winning; state-accessor
errors are returned as they occur. -/
def VerifyPayload {ε : Type} (cs : ChainSpec) (st : BeaconState ε)
    (payload : ExecutionPayload) : Option (VerifyError ε) :=
  match st.getLatestExecutionPayloadHeader with
  | .error e => some (.stateError e)
  | .ok header =>
    let safeHash := header.blockHash
    if safeHash ≠ payload.parentHash then
      some (.unfinalizedParent payload.parentHash safeHash)
    else
      match st.getSlot with
      | .error e => some (.stateError e)
      | .ok slot =>
        match st.getRandaoMixAtIndex
            (cs.slotToEpoch slot % cs.epochsPerHistoricalVector) with
        | .error e => some (.stateError e)
        | .ok expectedMix =>
          if payload.prevRandao ≠ expectedMix then
            some (.randaoMismatch expectedMix payload.prevRandao)
          else if payload.withdrawals.length > cs.maxWithdrawalsPerPayload then
            some (.tooManyWithdrawals cs.maxWithdrawalsPerPayload
              payload.withdrawals.length)
          else
            none

/-! ## Blocks and the blockchain service (src/beacon/blockchain/process.go)

A beacon block may be the nil sentinel, its body may be nil, and the body's
execution payload may be nil; each nilable layer is an `Option`. -/

/-- Body of a beacon block: execution payload (nilable) and blob KZG
commitments. -/
structure BlockBody where
  executionPayload : Option ExecutionPayload
  blobKzgCommitments : List Nat
deriving DecidableEq

/-- `ReadOnlyBeaconBlock`: slot, parent block root, body (nilable). -/
structure BeaconBlock where
  slot : Nat
  parentBlockRoot : Nat
  body : Option BlockBody
deriving DecidableEq

/-- Error results of `ValidateExecutionPayloadOnBlk`, by provenance: the two
nil sentinels, an error propagated from payload verification, a transport
error propagated from the engine call, and the engine-reported
`invalid payload` failure (process.go line 167), which in the source is a
fresh error value distinct from any transport error. -/
inductive ValidationError (ε : Type) where
  | nilBlkBody
  | nilPayload
  | payloadVerification (e : ε)
  | engineRPC (e : ε)
  | invalidPayload
deriving DecidableEq

/-- Oracles of the blockchain `Service` used by `ValidateExecutionPayloadOnBlk`
and `PostBlockProcess`: payload validator, execution-engine client,
forkchoice store, log processor, and the beacon state handle. -/
structure ChainService (ε : Type) where
  validatePayload : BeaconBlock → Option ε
  notifyNewPayload : Nat → ExecutionPayload → List Nat → Nat → Bool × Option ε
  convertCommitmentsToVersionedHashes : List Nat → List Nat
  insertNode : Nat → Option ε
  processLogsInETH1Block : Nat → Option ε
  notifyForkchoiceUpdate : Nat → Nat → Nat → Option ε
  st : BeaconState ε

/-- `ValidateExecutionPayloadOnBlk` (process.go lines 132-170): nil-body and
nil-payload checks, then payload verification, then `NotifyNewPayload` with
the commitments converted to versioned hashes; a transport error is returned
as is, and a valid transport with `isValidPayload = false` yields the
`invalid payload` error. -/
def ValidateExecutionPayloadOnBlk {ε : Type} (svc : ChainService ε)
    (blk : BeaconBlock) : Option (ValidationError ε) :=
  match blk.body with
  | none => some .nilBlkBody
  | some body =>
    match body.executionPayload with
    | none => some .nilPayload
    | some payload =>
      match svc.validatePayload blk with
      | some e => some (.payloadVerification e)
      | none =>
        match svc.notifyNewPayload blk.slot payload
            (svc.convertCommitmentsToVersionedHashes body.blobKzgCommitments)
            blk.parentBlockRoot with
        | (_, some e) => some (.engineRPC e)
        | (isValidPayload, none) =>
          if isValidPayload then none else some .invalidPayload

/-! ## Two-wave pipeline (`ProcessBeaconBlock`, process.go lines 50-119)

Wave 1 runs `ValidateExecutionPayloadOnBlk` and `ValidateBlock` in an
errgroup; wave 2 runs `ProcessBlobs` and `ProcessBlock` only after wave 1's
`Wait` returns nil.  `errgroup.Wait` returns the error of whichever failing
task the scheduler finished first; the scheduler's choice is modelled by a
Boolean `order` per wave selecting which task's error wins when both fail. -/

/-- Outcomes of the four pipeline tasks, as oracles. -/
structure PipelineOracles (ε : Type) where
  validatePayloadResult : Option ε
  validateBlockResult : Option ε
  processBlobsResult : Option ε
  processBlockResult : Option ε

/-- `errgroup.Wait` over two tasks: nil iff both succeeded, otherwise the
error of the task the scheduler saw fail first. -/
def waitPair {ε : Type} (order : Bool) (a b : Option ε) : Option ε :=
  if order then
    match a with
    | some e => some e
    | none => b
  else
    match b with
    | some e => some e
    | none => a

/-- Result of a `ProcessBeaconBlock` run: the returned error and how many
times each wave-2 collaborator was invoked. -/
structure PipelineResult (ε : Type) where
  result : Option ε
  processBlobsCalls : Nat
  processBlockCalls : Nat
deriving DecidableEq

/-- `ProcessBeaconBlock` under scheduler choices `order1`/`order2`: if
wave 1's `Wait` yields an error it is returned before either wave-2 task is
launched; otherwise wave 2 runs and its `Wait` result is returned. -/
def ProcessBeaconBlock {ε : Type} (order1 order2 : Bool)
    (o : PipelineOracles ε) : PipelineResult ε :=
  match waitPair order1 o.validatePayloadResult o.validateBlockResult with
  | some e => ⟨some e, 0, 0⟩
  | none =>
    match waitPair order2 o.processBlobsResult o.processBlockResult with
    | some e => ⟨some e, 1, 1⟩
    | none => ⟨none, 1, 1⟩

/-! ## Post-block processing and the forkchoice notifier
(process.go lines 174-219; part_001 lines 40-64 and 89-176) -/

/-- Collaborator invocations recorded by `PostBlockProcess`: the forkchoice
store insertion, the log processing call, and the deferred
`sendPostBlockFCU` trigger with the payload value it receives. -/
inductive PostBlockEvent where
  | insertNode (blockHash : Nat)
  | processLogs (blockHash : Nat)
  | sendPostBlockFCU (payload : Option ExecutionPayload)
deriving DecidableEq

/-- Error results of `PostBlockProcess`, by provenance. -/
inductive PostBlockError (ε : Type) where
  | insertNodeError (e : ε)
  | logProcessingError (e : ε)
deriving DecidableEq

/-- Whether an event is the `sendPostBlockFCU` trigger. -/
def PostBlockEvent.isFCU : PostBlockEvent → Bool
  | .sendPostBlockFCU _ => true
  | _ => false

/-- Body of `PostBlockProcess` (everything except the deferred call): the
returned error, the collaborator calls made, and the value of the local
`payload` variable at the point of return.  The nil-block and nil-body exits
leave `payload` at its zero value; the nil-payload exit happens after the
assignment `payload = blk.GetBody().GetExecutionPayload()`, whose nil
sentinel is `none` here. -/
def PostBlockProcessBody {ε : Type} (svc : ChainService ε)
    (blk : Option BeaconBlock) :
    Option (PostBlockError ε) × List PostBlockEvent × Option ExecutionPayload :=
  match blk with
  | none => (none, [], none)
  | some b =>
    match b.body with
    | none => (none, [], none)
    | some body =>
      match body.executionPayload with
      | none => (none, [], none)
      | some payload =>
        let payloadBlockHash := payload.blockHash
        match svc.insertNode payloadBlockHash with
        | some e => (some (.insertNodeError e), [.insertNode payloadBlockHash],
            some payload)
        | none =>
          match svc.processLogsInETH1Block payloadBlockHash with
          | some e => (some (.logProcessingError e),
              [.insertNode payloadBlockHash, .processLogs payloadBlockHash],
              some payload)
          | none => (none,
              [.insertNode payloadBlockHash, .processLogs payloadBlockHash],
              some payload)

/-- `PostBlockProcess` (process.go lines 174-219): runs the body and, as the
deferred unconditional final action, triggers `sendPostBlockFCU` with the
payload value resolved at the point of return. -/
def PostBlockProcess {ε : Type} (svc : ChainService ε)
    (blk : Option BeaconBlock) :
    Option (PostBlockError ε) × List PostBlockEvent :=
  match PostBlockProcessBody svc blk with
  | (r, events, payload) => (r, events ++ [.sendPostBlockFCU payload])

/-- The execution payload reachable from a possibly-nil block through its
possibly-nil body: this is the value `PostBlockProcess`'s local `payload`
variable holds at every exit point. -/
def resolvedPayload (blk : Option BeaconBlock) : Option ExecutionPayload :=
  blk.bind (fun b => b.body.bind (fun body => body.executionPayload))

/-- One forkchoice-update notification to the engine, with its
head/safe/finalized hash triple. -/
inductive FCUEvent where
  | notify (headHash safeHash finalizedHash : Nat)
deriving DecidableEq

/-- `sendFCU` (part_001 lines 40-64): reads the state's latest execution
payload for the safe/finalized hash and notifies the engine with head = the
supplied hash, safe = finalized = the latest payload's block hash. -/
def sendFCU {ε : Type} (svc : ChainService ε) (st : BeaconState ε)
    (headEth1Hash : Nat) : Option ε × List FCUEvent :=
  match st.getLatestExecutionPayload with
  | .error e => (some e, [])
  | .ok latestExecutionPayload =>
    let eth1BlockHash := latestExecutionPayload.blockHash
    (svc.notifyForkchoiceUpdate headEth1Hash eth1BlockHash eth1BlockHash,
      [.notify headEth1Hash eth1BlockHash eth1BlockHash])

/-- `sendPostBlockFCU` (part_001 lines 89-176): head hash is the payload's
block hash when a payload was supplied, otherwise the state's latest
execution payload's block hash (returning early, with no notification, when
even that lookup fails); then it delegates to `sendFCU`, whose error is
logged, not propagated. -/
def sendPostBlockFCU {ε : Type} (svc : ChainService ε) (st : BeaconState ε)
    (payload : Option ExecutionPayload) : List FCUEvent :=
  match payload with
  | some p => (sendFCU svc st p.blockHash).2
  | none =>
    match st.getLatestExecutionPayload with
    | .error _ => []
    | .ok latestExecutionPayload =>
      (sendFCU svc st latestExecutionPayload.blockHash).2

/-! ## Deposit service (`handleDepositEvent`, src/unnamed/part_002) -/

/-- Go `uint64` subtraction: `a - b` reduced modulo `2^64`, wrapping around
when `b > a`. -/
def usub64 (a b : Nat) : Nat :=
  (2 ^ 64 + a % 2 ^ 64 - b % 2 ^ 64) % 2 ^ 64

/-- Block event consumed by the deposit service: `e.Block().GetSlot()`. -/
structure DSBlockEvent where
  blockSlot : Nat
deriving DecidableEq

/-- Deposit-service oracles: the follow distance (`1` in `NewService`), the
deposit-contract reader, and the deposit store's enqueue. `δ` is the opaque
deposit type. -/
structure DepositService (δ ε : Type) where
  eth1FollowDistance : Nat
  getDeposits : Nat → Except ε (List δ)
  enqueueDeposits : List δ → Option ε

/-- `handleDepositEvent` (part_002 lines 278-299): computes
`slot = blockSlot - eth1FollowDistance` in uint64 arithmetic with no
underflow guard, retrieves deposits for that slot, and enqueues them;
returns the first error from either collaborator.  The second component
records the slots for which `GetDeposits` was invoked. -/
def handleDepositEvent {δ ε : Type} (s : DepositService δ ε)
    (e : DSBlockEvent) : Option ε × List Nat :=
  let slot := usub64 e.blockSlot s.eth1FollowDistance
  match s.getDeposits slot with
  | .error err => (some err, [slot])
  | .ok deposits =>
    match s.enqueueDeposits deposits with
    | some err => (some err, [slot])
    | none => (none, [slot])

/-! ## Concrete inputs used by witness theorems -/

/-- Chain spec with 16 withdrawals per payload, mirroring the spec's
scenario. -/
def wCs : ChainSpec := ⟨fun s => s / 8, 64, 16⟩

/-- Latest execution payload held by the concrete state. -/
def wLep : ExecutionPayload := ⟨10, 3, 7, []⟩

/-- Concrete beacon state whose accessors all succeed. -/
def wSt : BeaconState Nat := ⟨.ok ⟨10⟩, .ok wLep, .ok 0, fun _ => .ok 7⟩

/-- A payload with 17 withdrawals whose parent hash and prev-randao match
`wSt`. -/
def wPayload17 : ExecutionPayload :=
  ⟨11, 10, 7, List.replicate 17 ⟨0, 0, 0, 0⟩⟩

/-- Body holding `wPayload17`. -/
def wBody : BlockBody := ⟨some wPayload17, []⟩

/-- Block holding `wBody`. -/
def wBlk : BeaconBlock := ⟨0, 0, some wBody⟩

/-- Block whose body is the nil sentinel. -/
def wBlkNilBody : BeaconBlock := ⟨0, 0, none⟩

/-- Service whose collaborators all succeed. -/
def wSvc : ChainService Nat :=
  ⟨fun _ => none, fun _ _ _ _ => (true, none), id, fun _ => none,
    fun _ => none, fun _ _ _ => none, wSt⟩

/-- Service whose engine reports the payload invalid with a nil transport
error. -/
def wSvcInvalid : ChainService Nat :=
  ⟨fun _ => none, fun _ _ _ _ => (false, none), id, fun _ => none,
    fun _ => none, fun _ _ _ => none, wSt⟩

/-- Deposit service with follow distance 1 and collaborators that succeed. -/
def wDepSvc : DepositService Unit Nat :=
  ⟨1, fun _ => .ok [], fun _ => none⟩

/-! ## Cache lemmas -/

theorem Cache.run_nil {α : Type} (c : Cache α) : Cache.run c [] = c := rfl

theorem Cache.run_cons {α : Type} (c : Cache α) (op : CacheOp α)
    (ops : List (CacheOp α)) :
    Cache.run c (op :: ops) = Cache.run (c.apply op) ops := rfl

theorem Cache.run_append {α : Type} (c : Cache α)
    (l1 l2 : List (CacheOp α)) :
    Cache.run c (l1 ++ l2) = Cache.run (Cache.run c l1) l2 := by
  simp [Cache.run, List.foldl_append]

theorem Cache.processing_run {α : Type} (ops : List (CacheOp α)) :
    ∀ c : Cache α, (Cache.run c ops).processingStore =
      pushedAux c.processingStore ops := by
  induction ops with
  | nil => intro c; rfl
  | cons op rest ih =>
    intro c
    cases op with
    | push x =>
      rw [Cache.run_cons, ih]
      simp [Cache.apply, Cache.Push, pushedAux]
    | setLastFinalizedBlock n =>
      rw [Cache.run_cons, ih]
      simp [Cache.apply, Cache.SetLastFinalizedBlock, pushedAux]
    | rollback =>
      rw [Cache.run_cons, ih]
      simp [Cache.apply, Cache.Rollback, pushedAux]

theorem Cache.run_pushes {α : Type} (entries : List α) :
    ∀ c : Cache α, Cache.run c (entries.map CacheOp.push) =
      { c with processingStore := c.processingStore ++ entries } := by
  induction entries with
  | nil => intro c; simp [Cache.run]
  | cons x rest ih =>
    intro c
    rw [List.map_cons, Cache.run_cons, ih]
    simp [Cache.apply, Cache.Push]

theorem finalizeArgsValid_append {α : Type} (p q : List (CacheOp α)) :
    ∀ c : Cache α, finalizeArgsValid c (p ++ q) =
      (finalizeArgsValid c p && finalizeArgsValid (Cache.run c p) q) := by
  induction p with
  | nil => intro c; simp [finalizeArgsValid, Cache.run]
  | cons op rest ih =>
    intro c
    rw [List.cons_append, Cache.run_cons]
    simp [finalizeArgsValid, ih, Bool.and_assoc]

theorem Cache.lfb_le_run {α : Type} (ops : List (CacheOp α)) :
    ∀ c : Cache α, finalizeArgsValid c ops = true →
      c.lastFinalizedBlock ≤ (Cache.run c ops).lastFinalizedBlock := by
  induction ops with
  | nil => intro c _; exact le_rfl
  | cons op rest ih =>
    intro c h
    rw [Cache.run_cons]
    simp only [finalizeArgsValid, Bool.and_eq_true] at h
    refine le_trans ?_ (ih (c.apply op) h.2)
    cases op with
    | push x => exact le_rfl
    | setLastFinalizedBlock n =>
      simpa [Cache.apply, Cache.SetLastFinalizedBlock] using
        Nat.le_of_ble_eq_true (by simpa [decide_eq_true_eq] using h.1)
    | rollback => exact le_rfl

/-! ## Claim theorems for the log cache -/

/-- C2: starting from the empty cache, after any `SetLastFinalizedBlock N`
the final store equals the previously finalized entries followed by exactly
the entries pushed since the last finalize or rollback, and the processing
store is empty. -/
theorem cache_finalize_commits_pending {α : Type} (ops : List (CacheOp α))
    (N : Nat) :
    (Cache.run Cache.empty (ops ++ [CacheOp.setLastFinalizedBlock N])).finalStore
      = (Cache.run (Cache.empty (α := α)) ops).finalStore
        ++ pushedSinceLastBoundary ops
    ∧ (Cache.run Cache.empty
        (ops ++ [CacheOp.setLastFinalizedBlock N])).processingStore = [] := by
  rw [Cache.run_append]
  have hp : (Cache.run (Cache.empty (α := α)) ops).processingStore =
      pushedSinceLastBoundary ops := by
    rw [Cache.processing_run]
    rfl
  refine ⟨?_, rfl⟩
  show (Cache.run Cache.empty ops).finalStore
      ++ (Cache.run Cache.empty ops).processingStore = _
  rw [hp]

/-- C3 counterexample: `SetLastFinalizedBlock` stores its argument
unconditionally, so the sequence `[setLastFinalizedBlock 5,
setLastFinalizedBlock 3]` makes `LastFinalizedBlock` decrease from 5 to 3. -/
theorem cache_lfb_decrease_counterexample :
    (Cache.run (Cache.empty (α := Unit))
        [CacheOp.setLastFinalizedBlock 5,
         CacheOp.setLastFinalizedBlock 3]).LastFinalizedBlock
      < (Cache.run (Cache.empty (α := Unit))
          [CacheOp.setLastFinalizedBlock 5]).LastFinalizedBlock := by
  decide

/-- C3 amended: `Push` and `Rollback` never change `lastFinalizedBlock`, and
along any call sequence in which every `SetLastFinalizedBlock` argument is
at least the then-current `lastFinalizedBlock`, the value returned by
`LastFinalizedBlock` never decreases (any point of the sequence compared to
any later point). -/
theorem cache_lfb_monotone_of_valid_finalize_args {α : Type} (c : Cache α)
    (p q : List (CacheOp α))
    (h : finalizeArgsValid c (p ++ q) = true) :
    (Cache.run c p).LastFinalizedBlock
      ≤ (Cache.run c (p ++ q)).LastFinalizedBlock := by
  rw [finalizeArgsValid_append, Bool.and_eq_true] at h
  rw [Cache.run_append]
  exact Cache.lfb_le_run q (Cache.run c p) h.2

/-- Witness for the amended C3 theorem at a concrete call sequence. -/
theorem cache_lfb_monotone_of_valid_finalize_args_witness :
    finalizeArgsValid (Cache.empty (α := Nat))
        ([CacheOp.push 7] ++ [CacheOp.setLastFinalizedBlock 2,
          CacheOp.rollback]) = true
    ∧ (Cache.run (Cache.empty (α := Nat)) [CacheOp.push 7]).LastFinalizedBlock
      ≤ (Cache.run Cache.empty
          ([CacheOp.push 7] ++ [CacheOp.setLastFinalizedBlock 2,
            CacheOp.rollback])).LastFinalizedBlock :=
  ⟨by decide,
    cache_lfb_monotone_of_valid_finalize_args Cache.empty [CacheOp.push 7]
      [CacheOp.setLastFinalizedBlock 2, CacheOp.rollback] (by decide)⟩

/-- C6: pushing `entries` and then rolling back leaves the final store and
`lastFinalizedBlock` untouched, empties the processing store, and a
subsequent `SetLastFinalizedBlock` commits none of those entries. -/
theorem cache_rollback_isolation {α : Type} (c : Cache α)
    (entries : List α) (M : Nat) :
    (Cache.run c (entries.map CacheOp.push ++ [CacheOp.rollback])).finalStore
        = c.finalStore
    ∧ (Cache.run c
        (entries.map CacheOp.push ++ [CacheOp.rollback])).LastFinalizedBlock
        = c.LastFinalizedBlock
    ∧ (Cache.run c
        (entries.map CacheOp.push ++ [CacheOp.rollback])).processingStore = []
    ∧ ((Cache.run c
          (entries.map CacheOp.push ++ [CacheOp.rollback])).SetLastFinalizedBlock
            M).finalStore = c.finalStore := by
  rw [Cache.run_append, Cache.run_pushes]
  refine ⟨rfl, rfl, rfl, ?_⟩
  simp [Cache.run, Cache.apply, Cache.Rollback, Cache.SetLastFinalizedBlock]

/-- C9: `ShouldProcess` returns true iff the log's block number exceeds
`LastFinalizedBlock`; in particular it returns false for every log whose
block number is at most `LastFinalizedBlock`. -/
theorem shouldProcess_iff_above_lastFinalized {α : Type} (c : Cache α)
    (log : EthLog) :
    (c.ShouldProcess log = true ↔
      log.blockNumber > c.LastFinalizedBlock)
    ∧ (log.blockNumber ≤ c.LastFinalizedBlock →
        c.ShouldProcess log = false) := by
  constructor
  · simp [Cache.ShouldProcess, Cache.LastFinalizedBlock]
  · intro h
    simp only [Cache.ShouldProcess, decide_eq_false_iff_not, gt_iff_lt,
      Nat.not_lt]
    exact h

/-- Witness for C9 at `lastFinalizedBlock = 100` and a log from block 100. -/
theorem shouldProcess_iff_above_lastFinalized_witness :
    ((Cache.mk ([] : List Unit) 100 []).ShouldProcess ⟨100⟩ = true ↔
      (100 : Nat) > (Cache.mk ([] : List Unit) 100 []).LastFinalizedBlock)
    ∧ ((100 : Nat) ≤ (Cache.mk ([] : List Unit) 100 []).LastFinalizedBlock →
        (Cache.mk ([] : List Unit) 100 []).ShouldProcess ⟨100⟩ = false) :=
  shouldProcess_iff_above_lastFinalized (Cache.mk [] 100 []) ⟨100⟩

/-- C10: `Push` appends exactly its container at the end of the processing
store, leaves the final store and `lastFinalizedBlock` unchanged, and
returns a nil error, unconditionally. -/
theorem push_appends_single_and_preserves {α : Type} (c : Cache α) (x : α) :
    (c.Push x).1.processingStore = c.processingStore ++ [x]
    ∧ (c.Push x).1.finalStore = c.finalStore
    ∧ (c.Push x).1.LastFinalizedBlock = c.LastFinalizedBlock
    ∧ (c.Push x).2 = none := by
  refine ⟨rfl, rfl, rfl, rfl⟩

/-! ## Claim theorem for the payload verifier -/

/-- C4: when the three state accessors succeed, `VerifyPayload` checks, in
order with first failure winning, the parent-hash linkage (error carries
both hashes), the prev-randao against
`RandaoMixAtIndex (SlotToEpoch slot % EpochsPerHistoricalVector)` (error
carries both values), and `withdrawals.length ≤ maxWithdrawalsPerPayload`
(error carries the limit and the actual count), and succeeds exactly when
all three hold. -/
theorem verifyPayload_checks_in_order {ε : Type} (cs : ChainSpec)
    (st : BeaconState ε) (payload : ExecutionPayload)
    (header : ExecutionPayloadHeader) (slot mix : Nat)
    (h1 : st.getLatestExecutionPayloadHeader = .ok header)
    (h2 : st.getSlot = .ok slot)
    (h3 : st.getRandaoMixAtIndex
      (cs.slotToEpoch slot % cs.epochsPerHistoricalVector) = .ok mix) :
    VerifyPayload cs st payload =
      if payload.parentHash ≠ header.blockHash then
        some (.unfinalizedParent payload.parentHash header.blockHash)
      else if payload.prevRandao ≠ mix then
        some (.randaoMismatch mix payload.prevRandao)
      else if payload.withdrawals.length > cs.maxWithdrawalsPerPayload then
        some (.tooManyWithdrawals cs.maxWithdrawalsPerPayload
          payload.withdrawals.length)
      else none := by
  by_cases hp : payload.parentHash = header.blockHash
  · simp [VerifyPayload, h1, h2, h3, hp]
  · simp [VerifyPayload, h1, h2, h3, hp, Ne.symm hp]

/-- Witness for C4: a payload with 17 withdrawals against a limit of 16
yields the too-many-withdrawals error carrying `(16, 17)`. -/
theorem verifyPayload_checks_in_order_witness :
    wSt.getLatestExecutionPayloadHeader = Except.ok ⟨10⟩
    ∧ wSt.getSlot = Except.ok 0
    ∧ wSt.getRandaoMixAtIndex
        (wCs.slotToEpoch 0 % wCs.epochsPerHistoricalVector) = Except.ok 7
    ∧ VerifyPayload wCs wSt wPayload17
        = some (.tooManyWithdrawals 16 17) :=
  ⟨rfl, rfl, rfl,
    (verifyPayload_checks_in_order wCs wSt wPayload17 ⟨10⟩ 0 7 rfl rfl
      rfl).trans (by decide)⟩

/-! ## Claim theorem for the two-wave pipeline -/

/-- C5: under any scheduling of the two errgroup waves, a wave-1 failure
(payload validation or block validation) means neither `ProcessBlobs` nor
`ProcessBlock` is invoked and the returned error is one of the wave-1
errors (in particular non-nil); `ProcessBeaconBlock` returns nil exactly
when all four tasks succeed. -/
theorem processBeaconBlock_two_wave_spec {ε : Type} (order1 order2 : Bool)
    (o : PipelineOracles ε) :
    ((o.validatePayloadResult ≠ none ∨ o.validateBlockResult ≠ none) →
      (ProcessBeaconBlock order1 order2 o).processBlobsCalls = 0
      ∧ (ProcessBeaconBlock order1 order2 o).processBlockCalls = 0
      ∧ ((ProcessBeaconBlock order1 order2 o).result
            = o.validatePayloadResult
          ∨ (ProcessBeaconBlock order1 order2 o).result
            = o.validateBlockResult)
      ∧ (ProcessBeaconBlock order1 order2 o).result ≠ none)
    ∧ ((ProcessBeaconBlock order1 order2 o).result = none ↔
        o.validatePayloadResult = none ∧ o.validateBlockResult = none
        ∧ o.processBlobsResult = none ∧ o.processBlockResult = none) := by
  cases hvp : o.validatePayloadResult with
  | some e =>
    cases hvb : o.validateBlockResult with
    | some f =>
      cases order1 <;>
        simp [ProcessBeaconBlock, waitPair, hvp, hvb]
    | none =>
      cases order1 <;>
        simp [ProcessBeaconBlock, waitPair, hvp, hvb]
  | none =>
    cases hvb : o.validateBlockResult with
    | some f =>
      cases order1 <;>
        simp [ProcessBeaconBlock, waitPair, hvp, hvb]
    | none =>
      refine ⟨fun hcon => ?_, ?_⟩
      · rcases hcon with hcon | hcon <;> exact absurd rfl hcon
      · cases hb : o.processBlobsResult with
        | some e =>
          cases order1 <;> cases order2 <;>
            cases hk : o.processBlockResult <;>
            simp [ProcessBeaconBlock, waitPair, hvp, hvb, hb, hk]
        | none =>
          cases order1 <;> cases order2 <;>
            cases hk : o.processBlockResult <;>
            simp [ProcessBeaconBlock, waitPair, hvp, hvb, hb, hk]

/-- Witness for C5: payload validation fails with error 1, so wave 2 is
never invoked and the error surfaces. -/
theorem processBeaconBlock_two_wave_spec_witness :
    ((some 1 ≠ (none : Option Nat) ∨ (none : Option Nat) ≠ none)
    ∧ (ProcessBeaconBlock true true
        (⟨some 1, none, none, none⟩ : PipelineOracles Nat)).processBlobsCalls
          = 0
    ∧ (ProcessBeaconBlock true true
        (⟨some 1, none, none, none⟩ : PipelineOracles Nat)).processBlockCalls
          = 0
    ∧ ((ProcessBeaconBlock true true
          (⟨some 1, none, none, none⟩ : PipelineOracles Nat)).result = some 1
        ∨ (ProcessBeaconBlock true true
            (⟨some 1, none, none, none⟩ : PipelineOracles Nat)).result = none)
    ∧ (ProcessBeaconBlock true true
        (⟨some 1, none, none, none⟩ : PipelineOracles Nat)).result ≠ none) :=
  ⟨Or.inl (by decide),
    ((processBeaconBlock_two_wave_spec true true
        (⟨some 1, none, none, none⟩ : PipelineOracles Nat)).1
      (Or.inl (by decide)))⟩

/-! ## Claim theorem for payload validation on a block -/

/-- C8: `ValidateExecutionPayloadOnBlk` returns the nil-body error when the
body is nil and the nil-payload error when the payload is nil; after payload
verification succeeds it returns the invalid-payload error exactly when the
engine reports the payload invalid with a nil transport error; and the
invalid-payload error is a distinct class from any engine transport
error. -/
theorem validateExecutionPayloadOnBlk_error_classes {ε : Type}
    (svc : ChainService ε) (blk : BeaconBlock) :
    (blk.body = none →
      ValidateExecutionPayloadOnBlk svc blk = some .nilBlkBody)
    ∧ (∀ body : BlockBody, blk.body = some body →
        body.executionPayload = none →
        ValidateExecutionPayloadOnBlk svc blk = some .nilPayload)
    ∧ (∀ (body : BlockBody) (payload : ExecutionPayload),
        blk.body = some body → body.executionPayload = some payload →
        svc.validatePayload blk = none →
        (ValidateExecutionPayloadOnBlk svc blk = some .invalidPayload ↔
          (svc.notifyNewPayload blk.slot payload
            (svc.convertCommitmentsToVersionedHashes body.blobKzgCommitments)
            blk.parentBlockRoot).2 = none
          ∧ (svc.notifyNewPayload blk.slot payload
              (svc.convertCommitmentsToVersionedHashes body.blobKzgCommitments)
              blk.parentBlockRoot).1 = false))
    ∧ (∀ e : ε,
        (ValidationError.invalidPayload : ValidationError ε)
          ≠ .engineRPC e) := by
  refine ⟨?_, ?_, ?_, ?_⟩
  · intro h
    simp [ValidateExecutionPayloadOnBlk, h]
  · intro body hb hep
    simp [ValidateExecutionPayloadOnBlk, hb, hep]
  · intro body payload hb hep hv
    cases hnp : svc.notifyNewPayload blk.slot payload
        (svc.convertCommitmentsToVersionedHashes body.blobKzgCommitments)
        blk.parentBlockRoot with
    | mk isValid err =>
      cases err with
      | some e =>
        simp [ValidateExecutionPayloadOnBlk, hb, hep, hv, hnp]
      | none =>
        cases isValid <;>
          simp [ValidateExecutionPayloadOnBlk, hb, hep, hv, hnp]
  · intro e
    simp

/-- Witness for C8: a nil body yields the nil-body error, and with a
successful verification the engine reporting `(false, nil)` yields exactly
the invalid-payload error, which differs from the transport-error class. -/
theorem validateExecutionPayloadOnBlk_error_classes_witness :
    wBlkNilBody.body = none
    ∧ ValidateExecutionPayloadOnBlk wSvcInvalid wBlkNilBody
        = some .nilBlkBody
    ∧ wBlk.body = some wBody
    ∧ wBody.executionPayload = some wPayload17
    ∧ wSvcInvalid.validatePayload wBlk = none
    ∧ (ValidateExecutionPayloadOnBlk wSvcInvalid wBlk
          = some .invalidPayload ↔
        (wSvcInvalid.notifyNewPayload wBlk.slot wPayload17
          (wSvcInvalid.convertCommitmentsToVersionedHashes
            wBody.blobKzgCommitments)
          wBlk.parentBlockRoot).2 = none
        ∧ (wSvcInvalid.notifyNewPayload wBlk.slot wPayload17
            (wSvcInvalid.convertCommitmentsToVersionedHashes
              wBody.blobKzgCommitments)
            wBlk.parentBlockRoot).1 = false)
    ∧ (ValidationError.invalidPayload : ValidationError Nat)
        ≠ .engineRPC 5 :=
  ⟨rfl,
    (validateExecutionPayloadOnBlk_error_classes wSvcInvalid wBlkNilBody).1
      rfl,
    rfl, rfl, rfl,
    (validateExecutionPayloadOnBlk_error_classes wSvcInvalid wBlk).2.2.1
      wBody wPayload17 rfl rfl rfl,
    (validateExecutionPayloadOnBlk_error_classes wSvcInvalid wBlk).2.2.2 5⟩

/-! ## Claim theorem for post-block processing -/

theorem postBlockProcess_eq {ε : Type} (svc : ChainService ε)
    (blk : Option BeaconBlock) :
    PostBlockProcess svc blk = ((PostBlockProcessBody svc blk).1,
      (PostBlockProcessBody svc blk).2.1
        ++ [.sendPostBlockFCU (PostBlockProcessBody svc blk).2.2]) := rfl

theorem postBlockProcessBody_no_fcu_and_payload {ε : Type}
    (svc : ChainService ε) (blk : Option BeaconBlock) :
    (PostBlockProcessBody svc blk).2.1.countP PostBlockEvent.isFCU = 0
    ∧ (PostBlockProcessBody svc blk).2.2 = resolvedPayload blk := by
  cases blk with
  | none => simp [PostBlockProcessBody, resolvedPayload]
  | some b =>
    cases hb : b.body with
    | none => simp [PostBlockProcessBody, resolvedPayload, hb]
    | some body =>
      cases hep : body.executionPayload with
      | none => simp [PostBlockProcessBody, resolvedPayload, hb, hep]
      | some payload =>
        cases hin : svc.insertNode payload.blockHash with
        | some e =>
          simp [PostBlockProcessBody, resolvedPayload, hb, hep, hin,
            List.countP_cons, PostBlockEvent.isFCU]
        | none =>
          cases hlg : svc.processLogsInETH1Block payload.blockHash <;>
            simp [PostBlockProcessBody, resolvedPayload, hb, hep, hin, hlg,
              List.countP_cons, PostBlockEvent.isFCU]

/-- C1: on every exit path of `PostBlockProcess` (nil block, nil body, nil
payload, `InsertNode` error, log-processing error, or success) the deferred
`sendPostBlockFCU` trigger fires exactly once, as the final action, and
receives the payload value resolved at the point of return (nil exactly on
the early-exit paths); moreover `sendPostBlockFCU` with a nil payload and a
readable state falls back to the head hash of the state's latest execution
payload. -/
theorem postBlockProcess_always_fires_fcu {ε : Type} (svc : ChainService ε)
    (blk : Option BeaconBlock) :
    (PostBlockProcess svc blk).2.countP PostBlockEvent.isFCU = 1
    ∧ (PostBlockProcess svc blk).2.getLast?
        = some (.sendPostBlockFCU (resolvedPayload blk))
    ∧ ∀ (st : BeaconState ε) (lep : ExecutionPayload),
        st.getLatestExecutionPayload = Except.ok lep →
        sendPostBlockFCU svc st none = (sendFCU svc st lep.blockHash).2 := by
  have hbody := postBlockProcessBody_no_fcu_and_payload svc blk
  refine ⟨?_, ?_, ?_⟩
  · rw [postBlockProcess_eq]
    simp [List.countP_append, hbody.1, List.countP_cons, PostBlockEvent.isFCU]
  · rw [postBlockProcess_eq]
    simp [List.getLast?_concat, hbody.2]
  · intro st lep h
    simp [sendPostBlockFCU, h]

/-- Witness for C1: a concrete block with a payload fires the trigger once
as the last event with that payload, and the nil-payload fallback resolves
the head hash from the concrete state's latest execution payload. -/
theorem postBlockProcess_always_fires_fcu_witness :
    (PostBlockProcess wSvc (some wBlk)).2.countP PostBlockEvent.isFCU = 1
    ∧ (PostBlockProcess wSvc (some wBlk)).2.getLast?
        = some (.sendPostBlockFCU (resolvedPayload (some wBlk)))
    ∧ wSt.getLatestExecutionPayload = Except.ok wLep
    ∧ sendPostBlockFCU wSvc wSt none = (sendFCU wSvc wSt wLep.blockHash).2 :=
  ⟨(postBlockProcess_always_fires_fcu wSvc (some wBlk)).1,
    (postBlockProcess_always_fires_fcu wSvc (some wBlk)).2.1,
    rfl,
    (postBlockProcess_always_fires_fcu wSvc (some wBlk)).2.2 wSt wLep rfl⟩

/-! ## Claim theorems for the deposit handler -/

/-- C7 counterexample: with follow distance 1 and a block at slot 0, the
subtraction wraps to `2^64 - 1`; `handleDepositEvent` reports no error and
retrieves deposits for that wrapped-around slot. -/
theorem handleDepositEvent_underflow_counterexample :
    handleDepositEvent wDepSvc ⟨0⟩ = (none, [2 ^ 64 - 1]) := by
  decide

/-- C7 amended: `handleDepositEvent` computes the slot as
`(blockSlot - eth1FollowDistance) mod 2^64` — ordinary subtraction when the
follow distance is at most the block slot, wrap-around otherwise — always
invokes `GetDeposits` for exactly that slot, and returns no error whenever
retrieval and enqueue succeed; there is no underflow check. -/
theorem handleDepositEvent_wrapping_sub {δ ε : Type}
    (s : DepositService δ ε) (e : DSBlockEvent)
    (hs : e.blockSlot < 2 ^ 64) (hf : s.eth1FollowDistance < 2 ^ 64) :
    (handleDepositEvent s e).2
        = [(2 ^ 64 + e.blockSlot - s.eth1FollowDistance) % 2 ^ 64]
    ∧ (s.eth1FollowDistance ≤ e.blockSlot →
        (handleDepositEvent s e).2
          = [e.blockSlot - s.eth1FollowDistance])
    ∧ ∀ ds : List δ,
        s.getDeposits (usub64 e.blockSlot s.eth1FollowDistance)
          = Except.ok ds →
        s.enqueueDeposits ds = none →
        (handleDepositEvent s e).1 = none := by
  have hu : usub64 e.blockSlot s.eth1FollowDistance
      = (2 ^ 64 + e.blockSlot - s.eth1FollowDistance) % 2 ^ 64 := by
    unfold usub64
    rw [Nat.mod_eq_of_lt hs, Nat.mod_eq_of_lt hf]
  have hmain0 : (handleDepositEvent s e).2
      = [usub64 e.blockSlot s.eth1FollowDistance] := by
    unfold handleDepositEvent
    cases hg : s.getDeposits (usub64 e.blockSlot s.eth1FollowDistance) with
    | error err => simp [hg]
    | ok ds =>
      cases hq : s.enqueueDeposits ds <;> simp [hg, hq]
  have hmain : (handleDepositEvent s e).2
      = [(2 ^ 64 + e.blockSlot - s.eth1FollowDistance) % 2 ^ 64] := by
    rw [hmain0, hu]
  refine ⟨hmain, ?_, ?_⟩
  · intro hle
    have hmod : (2 ^ 64 + e.blockSlot - s.eth1FollowDistance) % 2 ^ 64
        = e.blockSlot - s.eth1FollowDistance := by
      omega
    rw [hmain, hmod]
  · intro ds hok hq
    unfold handleDepositEvent
    simp [hok, hq]

/-- Witness for the amended C7 theorem: slot 0 with follow distance 1 wraps
to `2^64 - 1` and the handler succeeds. -/
theorem handleDepositEvent_wrapping_sub_witness :
    (0 : Nat) < 2 ^ 64
    ∧ wDepSvc.eth1FollowDistance < 2 ^ 64
    ∧ (handleDepositEvent wDepSvc ⟨0⟩).2
        = [(2 ^ 64 + (0 : Nat) - wDepSvc.eth1FollowDistance) % 2 ^ 64]
    ∧ wDepSvc.getDeposits (usub64 0 wDepSvc.eth1FollowDistance)
        = Except.ok []
    ∧ wDepSvc.enqueueDeposits [] = none
    ∧ (handleDepositEvent wDepSvc ⟨0⟩).1 = none :=
  ⟨by decide, by decide,
    (handleDepositEvent_wrapping_sub wDepSvc ⟨0⟩ (by decide) (by decide)).1,
    rfl, rfl,
    (handleDepositEvent_wrapping_sub wDepSvc ⟨0⟩ (by decide)
      (by decide)).2.2 [] rfl rfl⟩

end BeaconKit
